import Mathlib

/-!
Shallow embedding of the LEG-Simulator invoicing collector
(`leg-invoicing-ui/collector.py`) and proofs about it.

Numbers are modelled as rationals (the Python code uses floats; the
claims under verification are stated "exactly in rational arithmetic").
Python dictionaries are modelled as association lists with Python's
insertion semantics (update in place when the key exists, append
otherwise).
-/

namespace LEG

/-- Association lists standing in for Python dicts, keyed by strings. -/
abbrev AList (α : Type) := List (String × α)

/-- Dict lookup: `d.get(k)` / `d[k]` (first match; keys are kept unique). -/
def alookup {α : Type} : AList α → String → Option α
  | [], _ => none
  | (k', v) :: rest, k => if k' = k then some v else alookup rest k

/-- Dict assignment `d[k] = v`: replace in place if present, else append. -/
def aset {α : Type} : AList α → String → α → AList α
  | [], k, v => [(k, v)]
  | (k', v') :: rest, k, v =>
      if k' = k then (k, v) :: rest else (k', v') :: aset rest k v

/-- Last-seen cumulative counters for one meter
(`previous_values[mac] = {"Ei": ei, "Eo": eo}`). -/
structure MeterVals where
  ei : ℚ
  eo : ℚ
deriving DecidableEq, Repr

/-- One meter's accumulated entry in `current_interval`. -/
structure IntervalEntry where
  house_id : String
  delta_ei : ℚ
  delta_eo : ℚ
  ei : ℚ
  eo : ℚ
deriving DecidableEq, Repr

/-- Mutable state of `EnergyCollector` relevant to delta tracking and
interval aggregation. -/
structure CState where
  previous_values : AList MeterVals
  current_interval : AList IntervalEntry
deriving DecidableEq, Repr

/-- An inbound MQTT payload; `Ei`/`Eo` may be absent
(`payload.get("Ei", 0)` defaults them to 0). -/
structure Payload where
  Ei : Option ℚ
  Eo : Option ℚ
deriving DecidableEq, Repr

/-- Policy tariffs as read from `tariffs.json` / config defaults. -/
structure BaseTariffs where
  p_pv : ℚ
  p_grid_con : ℚ
  p_grid_del : ℚ
deriving DecidableEq, Repr

/-- Settlement tariffs: `base_tariffs.copy()` with `p_con` and `p_pv`
overwritten; the grid rates are carried over from the policy. -/
structure Tariffs where
  p_con : ℚ
  p_pv : ℚ
  p_grid_con : ℚ
  p_grid_del : ℚ
deriving DecidableEq, Repr

/-- `EnergyCollector.calculate_breakeven_tariffs(E, I, base_tariffs)`. -/
def calculate_breakeven_tariffs (E I : ℚ) (base : BaseTariffs) : Tariffs :=
  let p_pv_policy := base.p_pv
  let p_grid_con := base.p_grid_con
  let p_grid_del := base.p_grid_del
  if I = 0 then
    { p_con := p_grid_con, p_pv := p_pv_policy,
      p_grid_con := p_grid_con, p_grid_del := p_grid_del }
  else if I ≤ E then
    let p_con_calc := p_grid_del + (E / I) * (p_pv_policy - p_grid_del)
    if p_grid_con < p_con_calc then
      { p_con := p_grid_con,
        p_pv := (I * p_grid_con + (E - I) * p_grid_del) / E,
        p_grid_con := p_grid_con, p_grid_del := p_grid_del }
    else
      { p_con := p_con_calc, p_pv := p_pv_policy,
        p_grid_con := p_grid_con, p_grid_del := p_grid_del }
  else
    { p_con := p_grid_con + (E / I) * (p_pv_policy - p_grid_con),
      p_pv := p_pv_policy,
      p_grid_con := p_grid_con, p_grid_del := p_grid_del }

/-- Sanity-check ceiling `MAX_DELTA = 0.1` (kWh per sample). -/
def MAX_DELTA : ℚ := 1 / 10

/-- Outcome of `process_message` for one payload (the Python method
returns `None`; this records which branch it took and the deltas it
computed, which the spec calls the `{accepted, delta_import,
delta_export}` result of `DeltaTracker.apply`). -/
inductive PResult where
  | unregistered
  | seeded
  | rejected (delta_ei delta_eo : ℚ)
  | accepted (delta_ei delta_eo : ℚ)
deriving DecidableEq, Repr

/-- `EnergyCollector.process_message(mac, payload)`, parameterised by the
static `HOUSE_CONFIG` map `cfg : mac → house id`. -/
def process_message (cfg : AList String) (s : CState) (mac : String)
    (p : Payload) : CState × PResult :=
  match alookup cfg mac with
  | none => (s, .unregistered)
  | some house_id =>
    let ei := p.Ei.getD 0
    let eo := p.Eo.getD 0
    match alookup s.previous_values mac with
    | none =>
        ({ s with previous_values := aset s.previous_values mac ⟨ei, eo⟩ },
         .seeded)
    | some prev =>
      if prev.ei = 0 then
        ({ s with previous_values := aset s.previous_values mac ⟨ei, eo⟩ },
         .seeded)
      else
        let delta_ei := max 0 (ei - prev.ei)
        let delta_eo := max 0 (eo - prev.eo)
        let s1 := { s with previous_values := aset s.previous_values mac ⟨ei, eo⟩ }
        if MAX_DELTA < delta_ei ∨ MAX_DELTA < delta_eo then
          (s1, .rejected delta_ei delta_eo)
        else
          let ci :=
            match alookup s1.current_interval mac with
            | some e =>
                aset s1.current_interval mac
                  { e with delta_ei := e.delta_ei + delta_ei,
                           delta_eo := e.delta_eo + delta_eo,
                           ei := ei, eo := eo }
            | none =>
                aset s1.current_interval mac
                  ⟨house_id, delta_ei, delta_eo, ei, eo⟩
          ({ s1 with current_interval := ci }, .accepted delta_ei delta_eo)

/-- A typed point for the persistence sink (InfluxDB `Point`). -/
structure Point where
  measurement : String
  tags : List (String × String)
  fields : List (String × ℚ)
deriving DecidableEq, Repr

/-- `total_consumption` (I): sum of `delta_ei` over the interval map. -/
def total_consumption (ci : AList IntervalEntry) : ℚ :=
  (ci.map (fun kv => kv.2.delta_ei)).sum

/-- `total_production` (E): sum of `delta_eo` over the interval map. -/
def total_production (ci : AList IntervalEntry) : ℚ :=
  (ci.map (fun kv => kv.2.delta_eo)).sum

/-- The `house_energy` point built for one interval entry (step 3 of
`store_interval_data`). -/
def house_point (tariffs : Tariffs) (mac : String) (data : IntervalEntry) :
    Point :=
  let value_consumption := data.delta_ei * tariffs.p_con
  let value_pv_delivery := data.delta_eo * tariffs.p_pv
  let net_flow_home := data.delta_eo - data.delta_ei
  { measurement := "house_energy",
    tags := [("house_id", data.house_id), ("mac", mac)],
    fields :=
      [("ei_kwh", data.ei), ("eo_kwh", data.eo),
       ("delta_ei_kwh", data.delta_ei), ("delta_eo_kwh", data.delta_eo),
       ("net_flow_kwh", net_flow_home),
       ("value_consumption_ct", value_consumption),
       ("value_pv_delivery_ct", value_pv_delivery),
       ("tariff_p_consumption", tariffs.p_con),
       ("tariff_p_pv_delivery", tariffs.p_pv)] }

/-- The `community_energy` point (steps 4-5 of `store_interval_data`). -/
def community_point (tariffs : Tariffs) (E I : ℚ) : Point :=
  let net_energy := E - I
  let grid_export := if 0 < net_energy then net_energy else 0
  let grid_import := if 0 < net_energy then 0 else |net_energy|
  { measurement := "community_energy",
    tags := [],
    fields :=
      [("total_consumption_kwh", I), ("total_production_kwh", E),
       ("grid_import_kwh", grid_import), ("grid_export_kwh", grid_export),
       ("value_grid_import_ct", grid_import * tariffs.p_grid_con),
       ("value_grid_export_ct", grid_export * tariffs.p_grid_del),
       ("tariff_p_grid_consumption", tariffs.p_grid_con),
       ("tariff_p_grid_delivery", tariffs.p_grid_del)] }

/-- The full batch handed to `write_api.write` for one interval. -/
def interval_points (base : BaseTariffs) (ci : AList IntervalEntry) :
    List Point :=
  let E := total_production ci
  let I := total_consumption ci
  let tariffs := calculate_breakeven_tariffs E I base
  (ci.map (fun kv => house_point tariffs kv.1 kv.2)) ++
    [community_point tariffs E I]

/-- Python exceptions that can surface in the collector's main loop. -/
inductive PyExc where
  | keyboardInterrupt
  | writeError
deriving DecidableEq, Repr

/-- `EnergyCollector.store_interval_data()`. `writeOk` abstracts whether
the `write_api.write` call returns or raises. The result carries the
collector state after the call, the batch that was handed to the sink,
and the call's outcome: `Except.error` means the exception propagated
out of the method. Note the Python method clears `current_interval`
only after the write returns. -/
def store_interval_data (writeOk : Bool) (base : BaseTariffs) (s : CState) :
    CState × List Point × Except PyExc Unit :=
  if s.current_interval = [] then (s, [], .ok ())
  else
    let pts := interval_points base s.current_interval
    if writeOk then ({ s with current_interval := [] }, pts, .ok ())
    else (s, pts, .error .writeError)

/-- Observable fate of the collector process after one pass of `main`'s
`while True` body under its `try ... except KeyboardInterrupt` guard. -/
inductive Outcome where
  | running (s : CState)
  | stopped (s : CState)
  | crashed (s : CState) (e : PyExc)
deriving DecidableEq, Repr

/-- One iteration of `main`'s loop: `store_interval_data()` inside a
`try` whose only handler catches `KeyboardInterrupt`; every other
exception escapes `main` and terminates the process. -/
def main_iteration (writeOk : Bool) (base : BaseTariffs) (s : CState) :
    Outcome :=
  match store_interval_data writeOk base s with
  | (s1, _, .ok _) => .running s1
  | (s1, _, .error .keyboardInterrupt) => .stopped s1
  | (s1, _, .error e) => .crashed s1 e

/-- One ingestion step: the state after `process_message` on one
`(mac, payload)` message. -/
def step (cfg : AList String) (s : CState) (m : String × Payload) : CState :=
  (process_message cfg s m.1 m.2).1

/-- State after processing a whole list of messages in arrival order. -/
def process_all (cfg : AList String) (s : CState)
    (msgs : List (String × Payload)) : CState :=
  msgs.foldl (step cfg) s

/-- Whether `process_message` accepts this message in state `s`. -/
def is_accepted (cfg : AList String) (s : CState) (m : String × Payload) :
    Bool :=
  match (process_message cfg s m.1 m.2).2 with
  | .accepted _ _ => true
  | _ => false

/-- Whether, along the run of `msgs` from state `s`, some message from
meter `mac` is accepted (i.e. `mac` has at least one accepted delta). -/
def any_accepted (cfg : AList String) : CState → List (String × Payload) →
    String → Bool
  | _, [], _ => false
  | s, m :: rest, mac =>
      (m.1 == mac && is_accepted cfg s m) ||
        any_accepted cfg (step cfg s m) rest mac

/-- Number of `house_energy` points in a batch carrying this `mac` tag. -/
def house_point_count (pts : List Point) (mac : String) : Nat :=
  pts.countP (fun pt =>
    pt.measurement == "house_energy" && pt.tags.contains ("mac", mac))

/-- Number of `house_energy` points in a batch carrying this `house_id`
tag. -/
def house_id_point_count (pts : List Point) (h : String) : Nat :=
  pts.countP (fun pt =>
    pt.measurement == "house_energy" && pt.tags.contains ("house_id", h))

/-! ## Tariff-engine theorems -/

/-- Claim C1: for every policy tariff set with total consumption `I > 0`,
the settlement tariffs returned by `calculate_breakeven_tariffs E I base`
satisfy the break-even identity of the active regime, exactly in rational
arithmetic: surplus uncapped (`E ≥ I` and candidate `≤ p_gc`):
`I·consumption_rate + (E−I)·p_gd = E·pv_rate`; surplus capped (`E ≥ I`
and candidate `> p_gc`): `I·p_gc + (E−I)·p_gd = E·pv_rate`; deficit
(`E < I`): `I·consumption_rate = E·pv_rate + (I−E)·p_gc`. -/
theorem breakeven_identities (E I : ℚ) (base : BaseTariffs) (hI : 0 < I) :
    (I ≤ E → base.p_grid_del + (E / I) * (base.p_pv - base.p_grid_del) ≤ base.p_grid_con →
      I * (calculate_breakeven_tariffs E I base).p_con + (E - I) * base.p_grid_del
        = E * (calculate_breakeven_tariffs E I base).p_pv) ∧
    (I ≤ E → base.p_grid_con < base.p_grid_del + (E / I) * (base.p_pv - base.p_grid_del) →
      I * base.p_grid_con + (E - I) * base.p_grid_del
        = E * (calculate_breakeven_tariffs E I base).p_pv) ∧
    (E < I →
      I * (calculate_breakeven_tariffs E I base).p_con
        = E * (calculate_breakeven_tariffs E I base).p_pv + (I - E) * base.p_grid_con) := by
  have hI0 : I ≠ 0 := ne_of_gt hI
  refine ⟨fun hle hcap => ?_, fun hle hcap => ?_, fun hlt => ?_⟩
  · simp only [calculate_breakeven_tariffs, if_neg hI0, if_pos hle, if_neg (not_lt.mpr hcap)]
    field_simp
    ring
  · have hE : 0 < E := lt_of_lt_of_le hI hle
    simp only [calculate_breakeven_tariffs, if_neg hI0, if_pos hle, if_pos hcap]
    field_simp
  · simp only [calculate_breakeven_tariffs, if_neg hI0, if_neg (not_le.mpr hlt)]
    field_simp
    ring

/-- Witness for C1 at the spec's Scenario A: policy `{pv 20, p_gc 30,
p_gd 6}`, `E = 10`, `I = 8` (surplus, uncapped candidate 23.5). -/
theorem breakeven_identities_witness :
    (0:ℚ) < 8 ∧
    (((8:ℚ) ≤ 10 → (6:ℚ) + (10 / 8) * (20 - 6) ≤ 30 →
        (8:ℚ) * (calculate_breakeven_tariffs 10 8 ⟨20, 30, 6⟩).p_con + (10 - 8) * 6
          = 10 * (calculate_breakeven_tariffs 10 8 ⟨20, 30, 6⟩).p_pv) ∧
      ((8:ℚ) ≤ 10 → (30:ℚ) < 6 + (10 / 8) * (20 - 6) →
        (8:ℚ) * 30 + (10 - 8) * 6 = 10 * (calculate_breakeven_tariffs 10 8 ⟨20, 30, 6⟩).p_pv) ∧
      ((10:ℚ) < 8 →
        (8:ℚ) * (calculate_breakeven_tariffs 10 8 ⟨20, 30, 6⟩).p_con
          = 10 * (calculate_breakeven_tariffs 10 8 ⟨20, 30, 6⟩).p_pv + (8 - 10) * 30)) :=
  ⟨by norm_num, breakeven_identities 10 8 ⟨20, 30, 6⟩ (by norm_num)⟩

/-- Counterexample to claim C4 as stated: `E = 0, I = 1` is a deficit
input (`E < I`, `I > 0`) with `p_pv = 10 < p_grid_con = 30`, yet the
computed `consumption_rate` equals `p_grid_con = 30` exactly, so it does
not lie strictly between `p_grid_con` and `p_pv`. -/
theorem deficit_rate_zero_production_cex :
    (0:ℚ) < 1 ∧ (10:ℚ) < 30 ∧
      (calculate_breakeven_tariffs 0 1 ⟨10, 30, 6⟩).p_con = 30 ∧
      ¬((10:ℚ) < (calculate_breakeven_tariffs 0 1 ⟨10, 30, 6⟩).p_con ∧
        (calculate_breakeven_tariffs 0 1 ⟨10, 30, 6⟩).p_con < 30) := by
  norm_num [calculate_breakeven_tariffs]

/-- Claim C4 (amended): for every deficit input with strictly positive
production, `0 < E < I`, and policy rates `p_pv < p_gc`, the computed
`consumption_rate` lies strictly between `p_gc` and `p_pv`. (At `E = 0`
it equals `p_gc` exactly.) -/
theorem deficit_rate_strictly_between (E I : ℚ) (base : BaseTariffs)
    (hE : 0 < E) (hEI : E < I) (hp : base.p_pv < base.p_grid_con) :
    base.p_pv < (calculate_breakeven_tariffs E I base).p_con ∧
      (calculate_breakeven_tariffs E I base).p_con < base.p_grid_con := by
  have hI : 0 < I := hE.trans hEI
  have hcon : (calculate_breakeven_tariffs E I base).p_con
      = base.p_grid_con + (E / I) * (base.p_pv - base.p_grid_con) := by
    simp [calculate_breakeven_tariffs, ne_of_gt hI, not_le.mpr hEI]
  have hr0 : 0 < E / I := div_pos hE hI
  have hr1 : E / I < 1 := (div_lt_one hI).mpr hEI
  constructor
  · rw [hcon]
    nlinarith [mul_pos (sub_pos.mpr hr1) (sub_pos.mpr hp)]
  · rw [hcon]
    nlinarith [mul_pos hr0 (sub_pos.mpr hp)]

/-- Witness for C4 (amended) at the spec's Scenario B: policy
`{pv 20, p_gc 30, p_gd 6}`, `E = 10`, `I = 15` (deficit, rate 70/3). -/
theorem deficit_rate_strictly_between_witness :
    (0:ℚ) < 10 ∧ (10:ℚ) < 15 ∧ (20:ℚ) < 30 ∧
      ((20:ℚ) < (calculate_breakeven_tariffs 10 15 ⟨20, 30, 6⟩).p_con ∧
        (calculate_breakeven_tariffs 10 15 ⟨20, 30, 6⟩).p_con < 30) :=
  ⟨by norm_num, by norm_num, by norm_num,
    deficit_rate_strictly_between 10 15 ⟨20, 30, 6⟩ (by norm_num) (by norm_num) (by norm_num)⟩

/-- Claim C9: with `I = 0` the engine returns the policy defaults
(`consumption_rate = grid_import_rate`, `pv_rate = pv_payout_rate`)
exactly, and in every regime the policy grid rates pass through to the
output unchanged. -/
theorem tariffs_passthrough_and_defaults (E I : ℚ) (base : BaseTariffs) :
    (calculate_breakeven_tariffs E I base).p_grid_con = base.p_grid_con ∧
    (calculate_breakeven_tariffs E I base).p_grid_del = base.p_grid_del ∧
    (I = 0 → (calculate_breakeven_tariffs E I base).p_con = base.p_grid_con ∧
      (calculate_breakeven_tariffs E I base).p_pv = base.p_pv) := by
  unfold calculate_breakeven_tariffs
  split_ifs <;> (simp_all; try (split_ifs <;> simp_all))

/-- Witness for C9 at `E = 5`, `I = 0`, policy `{pv 20, p_gc 30, p_gd 6}`. -/
theorem tariffs_passthrough_and_defaults_witness :
    (calculate_breakeven_tariffs 5 0 ⟨20, 30, 6⟩).p_grid_con = (30:ℚ) ∧
    (calculate_breakeven_tariffs 5 0 ⟨20, 30, 6⟩).p_grid_del = (6:ℚ) ∧
    ((0:ℚ) = 0 → (calculate_breakeven_tariffs 5 0 ⟨20, 30, 6⟩).p_con = (30:ℚ) ∧
      (calculate_breakeven_tariffs 5 0 ⟨20, 30, 6⟩).p_pv = (20:ℚ)) :=
  tariffs_passthrough_and_defaults 5 0 ⟨20, 30, 6⟩

/-! ## Association-list lemmas (Python dict semantics) -/

theorem alookup_aset_self {α : Type} (l : AList α) (k : String) (v : α) :
    alookup (aset l k v) k = some v := by
  induction l with
  | nil => simp [aset, alookup]
  | cons hd tl ih =>
      by_cases h : hd.1 = k
      · simp [aset, alookup, h]
      · simp [aset, alookup, h, ih]

theorem alookup_aset_ne {α : Type} (l : AList α) (k k2 : String) (v : α)
    (h : k2 ≠ k) : alookup (aset l k v) k2 = alookup l k2 := by
  have h0 : ¬(k = k2) := fun he => h he.symm
  induction l with
  | nil => simp [aset, alookup, h0]
  | cons hd tl ih =>
      by_cases h1 : hd.1 = k
      · simp [aset, alookup, h1, h0]
      · by_cases h2 : hd.1 = k2
        · simp [aset, alookup, h, h1, h2]
        · simp [aset, alookup, h1, h2, ih]

/-! ## Delta-tracking theorems -/

/-- Helper: with no stored baseline, or a stored baseline whose `Ei` is
0, `process_message` takes the seed branch. -/
theorem process_message_seed_branch (cfg : AList String) (mac hid : String)
    (s : CState) (p : Payload) (hreg : alookup cfg mac = some hid)
    (hseed : ∀ prev : MeterVals, alookup s.previous_values mac = some prev → prev.ei = 0) :
    process_message cfg s mac p =
      (CState.mk (aset s.previous_values mac ⟨p.Ei.getD 0, p.Eo.getD 0⟩)
        s.current_interval, .seeded) := by
  cases hprev : alookup s.previous_values mac with
  | none => simp [process_message, hreg, hprev]
  | some prev => simp [process_message, hreg, hprev, hseed prev hprev]

/-- Claim C7: for a registered meter with no prior stored state, or whose
stored baseline has `Ei = 0` (the not-yet-seeded sentinel), processing
any reading stores `(Ei, Eo)` as the new baseline, returns
`accepted = false` (the seed branch), and leaves the interval
aggregation untouched, regardless of the reading's values. -/
theorem seed_reading (cfg : AList String) (mac hid : String) (s : CState)
    (p : Payload) (hreg : alookup cfg mac = some hid)
    (hseed : ∀ prev : MeterVals, alookup s.previous_values mac = some prev → prev.ei = 0) :
    (process_message cfg s mac p).2 = .seeded ∧
    alookup (process_message cfg s mac p).1.previous_values mac
      = some ⟨p.Ei.getD 0, p.Eo.getD 0⟩ ∧
    (process_message cfg s mac p).1.current_interval = s.current_interval := by
  rw [process_message_seed_branch cfg mac hid s p hreg hseed]
  exact ⟨rfl, alookup_aset_self _ _ _, rfl⟩

/-- Witness for C7: fresh collector state, registered meter `m1`,
first-ever reading `(Ei, Eo) = (7, 3)`. -/
theorem seed_reading_witness :
    alookup [("m1", "h1")] "m1" = some "h1" ∧
    (∀ prev : MeterVals,
      alookup (CState.mk [] []).previous_values "m1" = some prev → prev.ei = 0) ∧
    ((process_message [("m1", "h1")] ⟨[], []⟩ "m1" ⟨some 7, some 3⟩).2 = .seeded ∧
      alookup (process_message [("m1", "h1")] ⟨[], []⟩ "m1"
          ⟨some 7, some 3⟩).1.previous_values "m1"
        = some ⟨(Option.some (7:ℚ)).getD 0, (Option.some (3:ℚ)).getD 0⟩ ∧
      (process_message [("m1", "h1")] ⟨[], []⟩ "m1"
          ⟨some 7, some 3⟩).1.current_interval = ([] : AList IntervalEntry)) :=
  ⟨by simp [alookup], by simp [alookup],
    seed_reading [("m1", "h1")] "m1" "h1" ⟨[], []⟩ ⟨some 7, some 3⟩
      (by simp [alookup]) (by simp [alookup])⟩

/-- Claim C6: for every reading from a registered, already-seeded meter,
the stored baseline for that meter becomes the new raw `(Ei, Eo)`
unconditionally — on the rejected branch as well as the accepted one —
and the stored baseline of any other meter is unchanged. -/
theorem baseline_unconditional_update (cfg : AList String) (mac mac2 hid : String)
    (prev : MeterVals) (s : CState) (p : Payload)
    (hreg : alookup cfg mac = some hid)
    (hsee : alookup s.previous_values mac = some prev)
    (hne : prev.ei ≠ 0) (hother : mac2 ≠ mac) :
    alookup (process_message cfg s mac p).1.previous_values mac
      = some ⟨p.Ei.getD 0, p.Eo.getD 0⟩ ∧
    alookup (process_message cfg s mac p).1.previous_values mac2
      = alookup s.previous_values mac2 := by
  simp only [process_message, hreg, hsee, if_neg hne]
  split_ifs with h
  · exact ⟨alookup_aset_self _ _ _, alookup_aset_ne _ _ _ _ hother⟩
  · constructor
    · cases halt : alookup s.current_interval mac <;>
        simp [halt, alookup_aset_self]
    · cases halt : alookup s.current_interval mac <;>
        simp [halt, alookup_aset_ne _ _ _ _ hother]

/-- Witness for C6: meters `m1` (seeded at `(5, 5)`) and `m2`; a rejected
reading `(Ei, Eo) = (9, 5)` for `m1` still advances `m1`'s baseline and
leaves `m2`'s lookup unchanged. -/
theorem baseline_unconditional_update_witness :
    alookup [("m1", "h1"), ("m2", "h2")] "m1" = some "h1" ∧
    alookup (CState.mk [("m1", ⟨5, 5⟩)] []).previous_values "m1" = some ⟨5, 5⟩ ∧
    (MeterVals.mk 5 5).ei ≠ 0 ∧ "m2" ≠ "m1" ∧
    (alookup (process_message [("m1", "h1"), ("m2", "h2")] ⟨[("m1", ⟨5, 5⟩)], []⟩
          "m1" ⟨some 9, some 5⟩).1.previous_values "m1"
        = some ⟨(Option.some (9:ℚ)).getD 0, (Option.some (5:ℚ)).getD 0⟩ ∧
      alookup (process_message [("m1", "h1"), ("m2", "h2")] ⟨[("m1", ⟨5, 5⟩)], []⟩
          "m1" ⟨some 9, some 5⟩).1.previous_values "m2"
        = alookup (CState.mk [("m1", ⟨5, 5⟩)] []).previous_values "m2") :=
  ⟨by simp [alookup], by simp [alookup], by norm_num, by simp,
    baseline_unconditional_update [("m1", "h1"), ("m2", "h2")] "m1" "m2" "h1"
      ⟨5, 5⟩ ⟨[("m1", ⟨5, 5⟩)], []⟩ ⟨some 9, some 5⟩
      (by simp [alookup]) (by simp [alookup]) (by norm_num) (by simp)⟩

/-- Claim C5: for a registered, already-seeded meter, a reading whose raw
deltas both equal the ceiling `MAX_DELTA = 0.1` is accepted, while a
reading whose raw delta strictly exceeds the ceiling on either channel
is rejected and contributes nothing to the interval aggregation
(boundary inclusive on the accept side). -/
theorem ceiling_boundary (cfg : AList String) (mac hid : String)
    (prev : MeterVals) (s : CState) (p : Payload)
    (hreg : alookup cfg mac = some hid)
    (hsee : alookup s.previous_values mac = some prev)
    (hne : prev.ei ≠ 0) :
    (p.Ei.getD 0 - prev.ei = MAX_DELTA → p.Eo.getD 0 - prev.eo = MAX_DELTA →
      (process_message cfg s mac p).2 = .accepted MAX_DELTA MAX_DELTA) ∧
    (MAX_DELTA < p.Ei.getD 0 - prev.ei ∨ MAX_DELTA < p.Eo.getD 0 - prev.eo →
      (process_message cfg s mac p).2
          = .rejected (max 0 (p.Ei.getD 0 - prev.ei)) (max 0 (p.Eo.getD 0 - prev.eo)) ∧
        (process_message cfg s mac p).1.current_interval = s.current_interval) := by
  constructor
  · intro h1 h2
    have hmax : (0:ℚ) ≤ MAX_DELTA := by norm_num [MAX_DELTA]
    simp only [process_message, hreg, hsee, if_neg hne, h1, h2,
      max_eq_right hmax]
    rw [if_neg (by simp)]
  · intro h
    have hcl : MAX_DELTA < max 0 (p.Ei.getD 0 - prev.ei) ∨
        MAX_DELTA < max 0 (p.Eo.getD 0 - prev.eo) := by
      rcases h with h | h
      · exact Or.inl (lt_of_lt_of_le h (le_max_right _ _))
      · exact Or.inr (lt_of_lt_of_le h (le_max_right _ _))
    refine ⟨?_, ?_⟩ <;> simp only [process_message, hreg, hsee, if_neg hne, if_pos hcl]

/-- Witness for C5: meter `m1` seeded at `(1, 1)`, reading
`(1.1, 1.1)` — both raw deltas exactly `0.1` — is accepted. -/
theorem ceiling_boundary_witness :
    alookup [("m1", "h1")] "m1" = some "h1" ∧
    alookup (CState.mk [("m1", ⟨1, 1⟩)] []).previous_values "m1" = some ⟨1, 1⟩ ∧
    (MeterVals.mk 1 1).ei ≠ 0 ∧
    (((Option.some (11/10:ℚ)).getD 0 - (MeterVals.mk 1 1).ei = MAX_DELTA →
        (Option.some (11/10:ℚ)).getD 0 - (MeterVals.mk 1 1).eo = MAX_DELTA →
        (process_message [("m1", "h1")] ⟨[("m1", ⟨1, 1⟩)], []⟩ "m1"
            ⟨some (11/10), some (11/10)⟩).2 = .accepted MAX_DELTA MAX_DELTA) ∧
      (MAX_DELTA < (Option.some (11/10:ℚ)).getD 0 - (MeterVals.mk 1 1).ei ∨
          MAX_DELTA < (Option.some (11/10:ℚ)).getD 0 - (MeterVals.mk 1 1).eo →
        (process_message [("m1", "h1")] ⟨[("m1", ⟨1, 1⟩)], []⟩ "m1"
              ⟨some (11/10), some (11/10)⟩).2
            = .rejected (max 0 ((Option.some (11/10:ℚ)).getD 0 - (MeterVals.mk 1 1).ei))
                (max 0 ((Option.some (11/10:ℚ)).getD 0 - (MeterVals.mk 1 1).eo)) ∧
          (process_message [("m1", "h1")] ⟨[("m1", ⟨1, 1⟩)], []⟩ "m1"
              ⟨some (11/10), some (11/10)⟩).1.current_interval
            = (CState.mk [("m1", ⟨1, 1⟩)] []).current_interval)) :=
  ⟨by simp [alookup], by simp [alookup], by norm_num,
    ceiling_boundary [("m1", "h1")] "m1" "h1" ⟨1, 1⟩ ⟨[("m1", ⟨1, 1⟩)], []⟩
      ⟨some (11/10), some (11/10)⟩ (by simp [alookup]) (by simp [alookup]) (by norm_num)⟩

/-- Counterexample to claim C8 as stated: meter `m1` is registered and
seeded at `(5, 5)`; the reading `(4, 10)` has a negative raw difference
on the import channel (`4 − 5 < 0`), yet the sample is NOT accepted —
the export delta `5` exceeds the ceiling, so `process_message` rejects
it. -/
theorem negative_diff_rejected_cex :
    alookup [("m1", "h1")] "m1" = some "h1" ∧
    alookup (CState.mk [("m1", ⟨5, 5⟩)] []).previous_values "m1" = some ⟨5, 5⟩ ∧
    (4:ℚ) - 5 < 0 ∧
    (process_message [("m1", "h1")] ⟨[("m1", ⟨5, 5⟩)], []⟩ "m1"
        ⟨some 4, some 10⟩).2 = .rejected 0 5 := by
  refine ⟨by simp [alookup], by simp [alookup], by norm_num, ?_⟩
  simp only [process_message, alookup, if_pos rfl]
  norm_num [MAX_DELTA]

/-- Claim C8 (amended): for a registered, already-seeded meter, a
negative raw difference on a channel clamps that channel's delta to 0,
and — provided the other channel's clamped delta does not exceed the
ceiling — the sample is accepted (not treated as a reset); the clamped
deltas that enter the interval aggregation are never negative. -/
theorem negative_diff_clamped (cfg : AList String) (mac hid : String)
    (prev : MeterVals) (s : CState) (p : Payload)
    (hreg : alookup cfg mac = some hid)
    (hsee : alookup s.previous_values mac = some prev)
    (hne : prev.ei ≠ 0) :
    (p.Ei.getD 0 - prev.ei < 0 → max 0 (p.Ei.getD 0 - prev.ei) = 0) ∧
    (p.Eo.getD 0 - prev.eo < 0 → max 0 (p.Eo.getD 0 - prev.eo) = 0) ∧
    (p.Ei.getD 0 - prev.ei < 0 → max 0 (p.Eo.getD 0 - prev.eo) ≤ MAX_DELTA →
      (process_message cfg s mac p).2 = .accepted 0 (max 0 (p.Eo.getD 0 - prev.eo))) ∧
    (p.Eo.getD 0 - prev.eo < 0 → max 0 (p.Ei.getD 0 - prev.ei) ≤ MAX_DELTA →
      (process_message cfg s mac p).2 = .accepted (max 0 (p.Ei.getD 0 - prev.ei)) 0) ∧
    (0 ≤ max 0 (p.Ei.getD 0 - prev.ei) ∧ 0 ≤ max 0 (p.Eo.getD 0 - prev.eo)) := by
  refine ⟨fun h => max_eq_left h.le, fun h => max_eq_left h.le, ?_, ?_,
    le_max_left _ _, le_max_left _ _⟩
  · intro h1 h2
    have hei : max 0 (p.Ei.getD 0 - prev.ei) = 0 := max_eq_left h1.le
    simp only [process_message, hreg, hsee, if_neg hne, hei]
    rw [if_neg (show ¬(MAX_DELTA < (0:ℚ) ∨
        MAX_DELTA < max 0 (p.Eo.getD 0 - prev.eo)) by
      push_neg
      exact ⟨by norm_num [MAX_DELTA], h2⟩)]
  · intro h1 h2
    have heo : max 0 (p.Eo.getD 0 - prev.eo) = 0 := max_eq_left h1.le
    simp only [process_message, hreg, hsee, if_neg hne, heo]
    rw [if_neg (show ¬(MAX_DELTA < max 0 (p.Ei.getD 0 - prev.ei) ∨
        MAX_DELTA < (0:ℚ)) by
      push_neg
      exact ⟨h2, by norm_num [MAX_DELTA]⟩)]

/-- Witness for C8 (amended): meter `m1` seeded at `(5, 5)`, reading
`(4, 5)`: import channel raw difference `−1` clamps to 0, export delta
is 0 ≤ ceiling, sample accepted as `(0, 0)`. -/
theorem negative_diff_clamped_witness :
    alookup [("m1", "h1")] "m1" = some "h1" ∧
    alookup (CState.mk [("m1", ⟨5, 5⟩)] []).previous_values "m1" = some ⟨5, 5⟩ ∧
    (MeterVals.mk 5 5).ei ≠ 0 ∧
    (((Option.some (4:ℚ)).getD 0 - (MeterVals.mk 5 5).ei < 0 →
        max 0 ((Option.some (4:ℚ)).getD 0 - (MeterVals.mk 5 5).ei) = 0) ∧
      ((Option.some (5:ℚ)).getD 0 - (MeterVals.mk 5 5).eo < 0 →
        max 0 ((Option.some (5:ℚ)).getD 0 - (MeterVals.mk 5 5).eo) = 0) ∧
      ((Option.some (4:ℚ)).getD 0 - (MeterVals.mk 5 5).ei < 0 →
        max 0 ((Option.some (5:ℚ)).getD 0 - (MeterVals.mk 5 5).eo) ≤ MAX_DELTA →
        (process_message [("m1", "h1")] ⟨[("m1", ⟨5, 5⟩)], []⟩ "m1"
            ⟨some 4, some 5⟩).2
          = .accepted 0 (max 0 ((Option.some (5:ℚ)).getD 0 - (MeterVals.mk 5 5).eo))) ∧
      ((Option.some (5:ℚ)).getD 0 - (MeterVals.mk 5 5).eo < 0 →
        max 0 ((Option.some (4:ℚ)).getD 0 - (MeterVals.mk 5 5).ei) ≤ MAX_DELTA →
        (process_message [("m1", "h1")] ⟨[("m1", ⟨5, 5⟩)], []⟩ "m1"
            ⟨some 4, some 5⟩).2
          = .accepted (max 0 ((Option.some (4:ℚ)).getD 0 - (MeterVals.mk 5 5).ei)) 0) ∧
      (0 ≤ max 0 ((Option.some (4:ℚ)).getD 0 - (MeterVals.mk 5 5).ei) ∧
        0 ≤ max 0 ((Option.some (5:ℚ)).getD 0 - (MeterVals.mk 5 5).eo))) :=
  ⟨by simp [alookup], by simp [alookup], by norm_num,
    negative_diff_clamped [("m1", "h1")] "m1" "h1" ⟨5, 5⟩ ⟨[("m1", ⟨5, 5⟩)], []⟩
      ⟨some 4, some 5⟩ (by simp [alookup]) (by simp [alookup]) (by norm_num)⟩

/-- Claim C10: for a registered, seeded meter (stored baseline with
`Ei > 0`), a parseable payload whose `Ei` field is missing or 0 is not
rejected as malformed: it runs the delta path with a clamped import
delta of 0 (ending in the rejected or accepted branch, never the seed
branch), overwrites the stored baseline with `Ei = 0`, and thereby
reverts the meter to the not-yet-seeded sentinel: the immediately
following reading takes the seed branch (`accepted = false`) and leaves
the interval aggregation untouched, regardless of its values. -/
theorem zero_import_desyncs_baseline (cfg : AList String) (mac hid : String)
    (prev : MeterVals) (s : CState) (p p2 : Payload)
    (hreg : alookup cfg mac = some hid)
    (hsee : alookup s.previous_values mac = some prev)
    (hpos : 0 < prev.ei)
    (hEi : p.Ei = none ∨ p.Ei = some 0) :
    ((process_message cfg s mac p).2
          = .rejected 0 (max 0 (p.Eo.getD 0 - prev.eo)) ∨
      (process_message cfg s mac p).2
          = .accepted 0 (max 0 (p.Eo.getD 0 - prev.eo))) ∧
    alookup (process_message cfg s mac p).1.previous_values mac
      = some ⟨0, p.Eo.getD 0⟩ ∧
    (process_message cfg (process_message cfg s mac p).1 mac p2).2 = .seeded ∧
    (process_message cfg (process_message cfg s mac p).1 mac p2).1.current_interval
      = (process_message cfg s mac p).1.current_interval := by
  have hei0 : p.Ei.getD 0 = 0 := by rcases hEi with h | h <;> simp [h]
  have hdi : (0:ℚ) ⊔ (0 - prev.ei) = 0 := max_eq_left (by linarith)
  have hbase : alookup (process_message cfg s mac p).1.previous_values mac
      = some ⟨0, p.Eo.getD 0⟩ := by
    simp only [process_message, hreg, hsee, if_neg (ne_of_gt hpos), hei0]
    split_ifs with h
    · exact alookup_aset_self _ _ _
    · exact alookup_aset_self _ _ _
  have hseed2 : ∀ prev2 : MeterVals,
      alookup (process_message cfg s mac p).1.previous_values mac = some prev2 →
        prev2.ei = 0 := by
    intro prev2 h2
    rw [hbase] at h2
    cases h2
    rfl
  have hnext := process_message_seed_branch cfg mac hid
    (process_message cfg s mac p).1 p2 hreg hseed2
  refine ⟨?_, hbase, ?_, ?_⟩
  · simp only [process_message, hreg, hsee, if_neg (ne_of_gt hpos), hei0, hdi]
    split_ifs with h
    · exact Or.inl rfl
    · exact Or.inr rfl
  · rw [hnext]
  · rw [hnext]

/-- Witness for C10: meter `m1` seeded at `(3, 3)`; payload with missing
`Ei` and `Eo = 3`, followed by a normal reading `(100, 100)` that is
nevertheless treated as a seed. -/
theorem zero_import_desyncs_baseline_witness :
    alookup [("m1", "h1")] "m1" = some "h1" ∧
    alookup (CState.mk [("m1", ⟨3, 3⟩)] []).previous_values "m1" = some ⟨3, 3⟩ ∧
    (0:ℚ) < (MeterVals.mk 3 3).ei ∧
    ((Payload.mk none (some 3)).Ei = none ∨ (Payload.mk none (some 3)).Ei = some 0) ∧
    (((process_message [("m1", "h1")] ⟨[("m1", ⟨3, 3⟩)], []⟩ "m1" ⟨none, some 3⟩).2
          = .rejected 0 (max 0 ((Option.some (3:ℚ)).getD 0 - (MeterVals.mk 3 3).eo)) ∨
        (process_message [("m1", "h1")] ⟨[("m1", ⟨3, 3⟩)], []⟩ "m1" ⟨none, some 3⟩).2
          = .accepted 0 (max 0 ((Option.some (3:ℚ)).getD 0 - (MeterVals.mk 3 3).eo))) ∧
      alookup (process_message [("m1", "h1")] ⟨[("m1", ⟨3, 3⟩)], []⟩ "m1"
          ⟨none, some 3⟩).1.previous_values "m1"
        = some ⟨0, (Option.some (3:ℚ)).getD 0⟩ ∧
      (process_message [("m1", "h1")]
          (process_message [("m1", "h1")] ⟨[("m1", ⟨3, 3⟩)], []⟩ "m1" ⟨none, some 3⟩).1
          "m1" ⟨some 100, some 100⟩).2 = .seeded ∧
      (process_message [("m1", "h1")]
          (process_message [("m1", "h1")] ⟨[("m1", ⟨3, 3⟩)], []⟩ "m1" ⟨none, some 3⟩).1
          "m1" ⟨some 100, some 100⟩).1.current_interval
        = (process_message [("m1", "h1")] ⟨[("m1", ⟨3, 3⟩)], []⟩ "m1"
            ⟨none, some 3⟩).1.current_interval) :=
  ⟨by simp [alookup], by simp [alookup], by norm_num, Or.inl rfl,
    zero_import_desyncs_baseline [("m1", "h1")] "m1" "h1" ⟨3, 3⟩
      ⟨[("m1", ⟨3, 3⟩)], []⟩ ⟨none, some 3⟩ ⟨some 100, some 100⟩
      (by simp [alookup]) (by simp [alookup]) (by norm_num) (Or.inl rfl)⟩

/-! ## Settlement-flush failure handling -/

/-- Counterexample to claim C2 as stated: with one record buffered for
the interval and a failing sink write, the collector does not continue
running — `store_interval_data` has no exception handler, so the write's
exception escapes `main`'s `except KeyboardInterrupt` guard and the
process crashes, with the interval still uncleared. -/
theorem sink_failure_crash_cex :
    main_iteration false ⟨20, 30, 6⟩ (CState.mk [] [("m1", ⟨"h1", 1, 2, 3, 4⟩)])
        = .crashed (CState.mk [] [("m1", ⟨"h1", 1, 2, 3, 4⟩)]) .writeError ∧
      (CState.mk [] [("m1", ⟨"h1", 1, 2, 3, 4⟩)]).current_interval ≠ [] := by
  constructor
  · simp [main_iteration, store_interval_data]
  · simp

/-- Claim C2 (amended): when the per-interval batch write raises, the
exception propagates uncaught out of `store_interval_data` — the method
neither logs the failure nor clears `current_interval` (the clear comes
after the write) — and in `main` it escapes the `KeyboardInterrupt`-only
handler, so the loop terminates and the process crashes with the
interval's records still buffered in the dead process. -/
theorem sink_failure_uncaught (base : BaseTariffs) (s : CState)
    (h : s.current_interval ≠ []) :
    store_interval_data false base s
        = (s, interval_points base s.current_interval, .error .writeError) ∧
      main_iteration false base s = .crashed s .writeError := by
  constructor
  · simp [store_interval_data, h]
  · simp [main_iteration, store_interval_data, h]

/-- Witness for C2 (amended) at a concrete one-record interval. -/
theorem sink_failure_uncaught_witness :
    (CState.mk [] [("m1", ⟨"h1", 1, 2, 3, 4⟩)]).current_interval ≠ [] ∧
    (store_interval_data false ⟨20, 30, 6⟩ (CState.mk [] [("m1", ⟨"h1", 1, 2, 3, 4⟩)])
        = (CState.mk [] [("m1", ⟨"h1", 1, 2, 3, 4⟩)],
            interval_points ⟨20, 30, 6⟩
              (CState.mk [] [("m1", ⟨"h1", 1, 2, 3, 4⟩)]).current_interval,
            .error .writeError) ∧
      main_iteration false ⟨20, 30, 6⟩ (CState.mk [] [("m1", ⟨"h1", 1, 2, 3, 4⟩)])
        = .crashed (CState.mk [] [("m1", ⟨"h1", 1, 2, 3, 4⟩)]) .writeError) :=
  ⟨by simp, sink_failure_uncaught ⟨20, 30, 6⟩ _ (by simp)⟩

/-! ## Interval aggregation: one settlement record per active house -/

theorem mem_keys_aset {α : Type} (l : AList α) (k k2 : String) (v : α) :
    k2 ∈ (aset l k v).map Prod.fst ↔ k2 = k ∨ k2 ∈ l.map Prod.fst := by
  induction l with
  | nil => simp [aset]
  | cons hd tl ih =>
      by_cases h1 : hd.1 = k
      · subst h1
        simp only [aset, if_true, List.map_cons, List.mem_cons]
        tauto
      · simp only [aset]
        rw [if_neg h1]
        simp only [List.map_cons, List.mem_cons, ih]
        tauto

theorem nodup_keys_aset {α : Type} (l : AList α) (k : String) (v : α)
    (h : (l.map Prod.fst).Nodup) : ((aset l k v).map Prod.fst).Nodup := by
  induction l with
  | nil => simp [aset]
  | cons hd tl ih =>
      simp only [List.map_cons, List.nodup_cons] at h
      by_cases h1 : hd.1 = k
      · subst h1
        simpa [aset] using h
      · simp only [aset, if_neg h1, List.map_cons, List.nodup_cons]
        refine ⟨fun hm => ?_, ih h.2⟩
        rcases (mem_keys_aset tl k hd.1 v).mp hm with he | hm2
        · exact h1 he
        · exact h.1 hm2

theorem mem_aset {α : Type} (l : AList α) (k : String) (v : α)
    (x : String × α) (h : x ∈ aset l k v) : x = (k, v) ∨ x ∈ l := by
  induction l with
  | nil => simpa [aset] using h
  | cons hd tl ih =>
      by_cases h1 : hd.1 = k
      · simp only [aset, if_pos h1] at h
        rcases List.mem_cons.mp h with he | hm
        · exact Or.inl he
        · exact Or.inr (List.mem_cons_of_mem _ hm)
      · simp only [aset, if_neg h1] at h
        rcases List.mem_cons.mp h with he | hm
        · exact Or.inr (he ▸ List.mem_cons_self _ _)
        · rcases ih hm with he2 | hm2
          · exact Or.inl he2
          · exact Or.inr (List.mem_cons_of_mem _ hm2)

theorem alookup_mem {α : Type} (l : AList α) (k : String) (v : α)
    (h : alookup l k = some v) : (k, v) ∈ l := by
  induction l with
  | nil => simp [alookup] at h
  | cons hd tl ih =>
      by_cases h1 : hd.1 = k
      · subst h1
        simp only [alookup, if_true] at h
        injection h with h2
        subst h2
        exact List.mem_cons_self _ _
      · simp only [alookup, if_neg h1] at h
        exact List.mem_cons_of_mem _ (ih h)

theorem countP_key_zero {α : Type} (l : AList α) (k : String)
    (h : k ∉ l.map Prod.fst) :
    l.countP (fun kv => kv.1 == k) = 0 := by
  induction l with
  | nil => simp
  | cons hd tl ih =>
      simp only [List.map_cons, List.mem_cons, not_or] at h
      rw [List.countP_cons_of_neg _ _ (by simp; exact fun he => h.1 he.symm)]
      exact ih h.2

theorem countP_key_eq {α : Type} (l : AList α) (k : String)
    (h : (l.map Prod.fst).Nodup) :
    l.countP (fun kv => kv.1 == k) = if (alookup l k).isSome then 1 else 0 := by
  induction l with
  | nil => simp [alookup]
  | cons hd tl ih =>
      simp only [List.map_cons, List.nodup_cons] at h
      by_cases h1 : hd.1 = k
      · rw [List.countP_cons_of_pos _ _ (by simp [h1]),
          countP_key_zero tl k (h1 ▸ h.1)]
        simp [alookup, h1]
      · rw [List.countP_cons_of_neg _ _ (by simp [h1])]
        simp only [alookup, if_neg h1]
        exact ih h.2

/-- Case analysis of `process_message` relevant to the interval map: the
sample is not accepted and `current_interval` is untouched, or it is
accepted and `current_interval` gains/merges exactly the entry for this
meter, whose `house_id` comes from the registry (or from the entry
already present). -/
theorem process_message_cases (cfg : AList String) (s : CState)
    (mac0 : String) (p : Payload) :
    ((process_message cfg s mac0 p).1.current_interval = s.current_interval ∧
      ∀ d e, (process_message cfg s mac0 p).2 ≠ .accepted d e) ∨
    (∃ entry : IntervalEntry,
      (process_message cfg s mac0 p).1.current_interval
          = aset s.current_interval mac0 entry ∧
      (alookup cfg mac0 = some entry.house_id ∨
        ∃ e0, alookup s.current_interval mac0 = some e0 ∧
          entry.house_id = e0.house_id) ∧
      ∃ d e, (process_message cfg s mac0 p).2 = .accepted d e) := by
  cases hc : alookup cfg mac0 with
  | none => left; simp [process_message, hc]
  | some hid =>
    cases hp : alookup s.previous_values mac0 with
    | none => left; simp [process_message, hc, hp]
    | some prev =>
      by_cases hz : prev.ei = 0
      · left; simp [process_message, hc, hp, hz]
      · simp only [process_message, hc, hp, if_neg hz]
        split_ifs with hrej
        · left; simp
        · right
          cases halt : alookup s.current_interval mac0 with
          | some e0 =>
              exact ⟨_, rfl, Or.inr ⟨e0, rfl, rfl⟩, _, _, rfl⟩
          | none =>
              exact ⟨_, rfl, Or.inl rfl, _, _, rfl⟩

theorem is_accepted_false_of_cases (cfg : AList String) (s : CState)
    (m : String × Payload)
    (h : ∀ d e, (process_message cfg s m.1 m.2).2 ≠ .accepted d e) :
    is_accepted cfg s m = false := by
  unfold is_accepted
  cases h2 : (process_message cfg s m.1 m.2).2 with
  | accepted d e => exact absurd h2 (h d e)
  | unregistered => rfl
  | seeded => rfl
  | rejected d e => rfl

theorem step_ci_lookup (cfg : AList String) (s : CState)
    (m : String × Payload) (mac : String) :
    (alookup (step cfg s m).current_interval mac).isSome
      = ((m.1 == mac && is_accepted cfg s m)
          || (alookup s.current_interval mac).isSome) := by
  rcases process_message_cases cfg s m.1 m.2 with
    ⟨hci, hna⟩ | ⟨entry, hci, -, d, e, hacc⟩
  · rw [is_accepted_false_of_cases cfg s m hna,
      show (step cfg s m).current_interval = s.current_interval from hci]
    simp
  · have hA : is_accepted cfg s m = true := by unfold is_accepted; rw [hacc]
    rw [show (step cfg s m).current_interval
        = aset s.current_interval m.1 entry from hci, hA]
    by_cases hmac : m.1 = mac
    · subst hmac
      rw [alookup_aset_self]
      simp
    · rw [alookup_aset_ne _ _ _ _ (fun he => hmac he.symm)]
      simp [hmac]

theorem step_ci_nodup (cfg : AList String) (s : CState) (m : String × Payload)
    (h : (s.current_interval.map Prod.fst).Nodup) :
    ((step cfg s m).current_interval.map Prod.fst).Nodup := by
  rcases process_message_cases cfg s m.1 m.2 with ⟨hci, -⟩ | ⟨entry, hci, -, -⟩
  · rw [show (step cfg s m).current_interval = s.current_interval from hci]
    exact h
  · rw [show (step cfg s m).current_interval
        = aset s.current_interval m.1 entry from hci]
    exact nodup_keys_aset _ _ _ h

theorem step_ci_consistent (cfg : AList String) (s : CState)
    (m : String × Payload)
    (h : ∀ k e, (k, e) ∈ s.current_interval → alookup cfg k = some e.house_id) :
    ∀ k e, (k, e) ∈ (step cfg s m).current_interval
      → alookup cfg k = some e.house_id := by
  rcases process_message_cases cfg s m.1 m.2 with
    ⟨hci, -⟩ | ⟨entry, hci, hh, -⟩
  · intro k e hmem
    rw [show (step cfg s m).current_interval = s.current_interval from hci] at hmem
    exact h k e hmem
  · intro k e hmem
    rw [show (step cfg s m).current_interval
        = aset s.current_interval m.1 entry from hci] at hmem
    rcases mem_aset _ _ _ _ hmem with heq | hmem2
    · obtain ⟨hk, he⟩ := Prod.mk.injEq .. ▸ heq
      subst hk
      subst he
      rcases hh with hcfg | ⟨e0, halt, hhe⟩
      · exact hcfg
      · rw [hhe]
        exact h m.1 e0 (alookup_mem _ _ _ halt)
    · exact h k e hmem2

theorem process_all_ci_lookup (cfg : AList String)
    (msgs : List (String × Payload)) : ∀ (s : CState) (mac : String),
    (alookup (process_all cfg s msgs).current_interval mac).isSome
      = (any_accepted cfg s msgs mac
          || (alookup s.current_interval mac).isSome) := by
  induction msgs with
  | nil => intro s mac; simp [process_all, any_accepted]
  | cons m rest ih =>
      intro s mac
      have h1 : process_all cfg s (m :: rest)
          = process_all cfg (step cfg s m) rest := rfl
      rw [h1, ih, step_ci_lookup]
      simp only [any_accepted]
      cases hb1 : (m.1 == mac && is_accepted cfg s m) <;>
        cases hb2 : any_accepted cfg (step cfg s m) rest mac <;> simp

theorem process_all_ci_nodup (cfg : AList String)
    (msgs : List (String × Payload)) : ∀ s : CState,
    (s.current_interval.map Prod.fst).Nodup →
    ((process_all cfg s msgs).current_interval.map Prod.fst).Nodup := by
  induction msgs with
  | nil => intro s h; exact h
  | cons m rest ih => intro s h; exact ih _ (step_ci_nodup cfg s m h)

theorem process_all_ci_consistent (cfg : AList String)
    (msgs : List (String × Payload)) : ∀ s : CState,
    (∀ k e, (k, e) ∈ s.current_interval → alookup cfg k = some e.house_id) →
    ∀ k e, (k, e) ∈ (process_all cfg s msgs).current_interval
      → alookup cfg k = some e.house_id := by
  induction msgs with
  | nil => intro s h; exact h
  | cons m rest ih => intro s h; exact ih _ (step_ci_consistent cfg s m h)

theorem house_point_pred (t : Tariffs) (mac2 h : String) (e : IntervalEntry) :
    ((house_point t mac2 e).measurement == "house_energy"
      && (house_point t mac2 e).tags.contains ("house_id", h))
      = (e.house_id == h) := by
  simp [house_point, Bool.beq_eq_decide_eq, decide_eq_decide, eq_comm]

theorem community_point_pred (t : Tariffs) (E I : ℚ) (h : String) :
    ((community_point t E I).measurement == "house_energy"
      && (community_point t E I).tags.contains ("house_id", h)) = false := by
  simp [community_point]

theorem house_id_count_interval_points (base : BaseTariffs)
    (ci : AList IntervalEntry) (h : String) :
    house_id_point_count (interval_points base ci) h
      = ci.countP (fun kv => kv.2.house_id == h) := by
  unfold house_id_point_count interval_points
  rw [List.countP_append, List.countP_map, List.countP_singleton,
    community_point_pred]
  rw [if_neg (by simp)]
  rw [Nat.add_zero]
  refine List.countP_congr fun kv hkv => ?_
  rw [Function.comp_apply, house_point_pred]

/-- Claim C3: starting from an empty interval bucket, run any message
sequence and flush (with the sink write succeeding). For a house `h`
registered to meter `mac` (and to no other meter), the flushed batch
contains exactly one `house_energy` point tagged with `h` when some
message from `mac` was accepted during the interval, and none when the
house was silent (no accepted delta). -/
theorem one_record_per_house (cfg : AList String) (base : BaseTariffs)
    (s : CState) (msgs : List (String × Payload)) (mac h : String)
    (hci : s.current_interval = [])
    (hreg : alookup cfg mac = some h)
    (huniq : ∀ k h2, alookup cfg k = some h2 → h2 = h → k = mac) :
    house_id_point_count
        (store_interval_data true base (process_all cfg s msgs)).2.1 h
      = if any_accepted cfg s msgs mac then 1 else 0 := by
  have hlook : (alookup (process_all cfg s msgs).current_interval mac).isSome
      = any_accepted cfg s msgs mac := by
    rw [process_all_ci_lookup, hci]
    simp [alookup]
  have hnodup : ((process_all cfg s msgs).current_interval.map Prod.fst).Nodup :=
    process_all_ci_nodup cfg msgs s (by rw [hci]; simp)
  have hcons : ∀ k e, (k, e) ∈ (process_all cfg s msgs).current_interval
      → alookup cfg k = some e.house_id :=
    process_all_ci_consistent cfg msgs s (by rw [hci]; simp)
  by_cases hempty : (process_all cfg s msgs).current_interval = []
  · have hacc : any_accepted cfg s msgs mac = false := by
      rw [← hlook, hempty]
      simp [alookup]
    rw [store_interval_data, if_pos hempty, hacc]
    simp [house_id_point_count]
  · have h21 : (store_interval_data true base (process_all cfg s msgs)).2.1
        = interval_points base (process_all cfg s msgs).current_interval := by
      rw [store_interval_data, if_neg hempty]
      rfl
    rw [h21, house_id_count_interval_points]
    have hcong : ∀ kv ∈ (process_all cfg s msgs).current_interval,
        (kv.2.house_id == h) = (kv.1 == mac) := by
      intro kv hkv
      have hc := hcons kv.1 kv.2 hkv
      by_cases he : kv.2.house_id = h
      · have hk : kv.1 = mac := huniq kv.1 kv.2.house_id hc he
        simp [he, hk]
      · have hk : kv.1 ≠ mac := by
          intro hk
          rw [hk, hreg] at hc
          exact he (Option.some.injEq .. ▸ hc.symm)
        simp [he, hk]
    rw [List.countP_congr (fun kv hkv => by rw [hcong kv hkv]),
      countP_key_eq _ _ hnodup, hlook]

/-- Witness for C3: registry `{m1 ↦ h1, m2 ↦ h2}`; from a fresh state,
`m1` sends a seed `(5, 5)` and then `(5.01, 5.02)` (accepted), while
`m2` sends only a seed `(2, 2)` and stays silent; the flushed batch has
exactly one `house_energy` point for `h1`. -/
theorem one_record_per_house_witness :
    (CState.mk [] []).current_interval = [] ∧
    alookup [("m1", "h1"), ("m2", "h2")] "m1" = some "h1" ∧
    (∀ k h2, alookup [("m1", "h1"), ("m2", "h2")] k = some h2 → h2 = "h1" → k = "m1") ∧
    house_id_point_count
        (store_interval_data true ⟨20, 30, 6⟩
          (process_all [("m1", "h1"), ("m2", "h2")] ⟨[], []⟩
            [("m1", ⟨some 5, some 5⟩), ("m2", ⟨some 2, some 2⟩),
             ("m1", ⟨some (501/100), some (502/100)⟩)])).2.1 "h1"
      = if any_accepted [("m1", "h1"), ("m2", "h2")] ⟨[], []⟩
            [("m1", ⟨some 5, some 5⟩), ("m2", ⟨some 2, some 2⟩),
             ("m1", ⟨some (501/100), some (502/100)⟩)] "m1"
        then 1 else 0 :=
  ⟨rfl, by simp [alookup], by
    intro k h2 hk hh
    by_cases h1 : "m1" = k
    · exact h1.symm
    · by_cases h2x : "m2" = k
      · simp_all [alookup]
      · simp [alookup, h1, h2x] at hk,
    one_record_per_house [("m1", "h1"), ("m2", "h2")] ⟨20, 30, 6⟩ ⟨[], []⟩
      [("m1", ⟨some 5, some 5⟩), ("m2", ⟨some 2, some 2⟩),
       ("m1", ⟨some (501/100), some (502/100)⟩)] "m1" "h1" rfl
      (by simp [alookup])
      (by
        intro k h2 hk hh
        by_cases h1 : "m1" = k
        · exact h1.symm
        · by_cases h2x : "m2" = k
          · simp_all [alookup]
          · simp [alookup, h1, h2x] at hk)⟩

end LEG
